import Mathlib

/-!
Shallow embedding of the geometry pipeline of `src/components/victory-bar.jsx`
(VictoryBar). Numbers are modelled as rationals; every function mirrors the
corresponding method of the component. External collaborators from
`victory-util` (Chart.padDomain, Chart.getDomainFromGroupedData,
Data.createStringMap, scale functions from d3) are taken as parameters.
-/

namespace VictoryBar

/-- JavaScript-style values, as they appear in a `labels` array. -/
inductive JSVal where
  | undefined : JSVal
  | null : JSVal
  | str (s : String) : JSVal
  | num (q : ℚ) : JSVal
deriving DecidableEq, Repr

/-- JavaScript truthiness for `JSVal` (`undefined`, `null`, `""` and `0` are falsy). -/
def JSVal.truthy : JSVal → Bool
  | .undefined => false
  | .null => false
  | .str s => s ≠ ""
  | .num q => q ≠ 0

/-- A consolidated data point: `{x, y, category?}`. After `Data.consolidateData`
string axis values have been replaced by their 1-based integer codes, so `x`
and `y` are numeric here. -/
structure Datum where
  x : ℚ
  y : ℚ
  category : Option ℕ := none
deriving DecidableEq, Repr

/-- `Math.min(...l)` for a nonempty list (the empty case, `Infinity` in JS, is
unrepresentable in ℚ and unused by the component on the paths modelled here). -/
def listMin : List ℚ → ℚ
  | [] => 0
  | x :: xs => xs.foldl min x

/-- `Math.max(...l)` for a nonempty list (empty case unused, as in `listMin`). -/
def listMax : List ℚ → ℚ
  | [] => 0
  | x :: xs => xs.foldl max x

/-- The two chart axes. -/
inductive Axis where
  | x : Axis
  | y : Axis
deriving DecidableEq, Repr

/-- The instance state assembled by `getCalculatedValues`: consolidated
datasets, per-axis domain and range pairs, the resolved `style.data` width and
padding, the `categories` prop (range-band form), the `stacked` prop, and
whether `stringMap.x` is non-null. -/
structure CalcState where
  datasets : List (List Datum)
  domainX : ℚ × ℚ
  domainY : ℚ × ℚ
  rangeX : ℚ × ℚ
  rangeY : ℚ × ℚ
  barPadding : ℚ
  barWidth : ℚ
  categories : List (List ℚ)
  stacked : Bool
  stringMapX : Bool
deriving DecidableEq, Repr

/-- `this.domain[axis]`. -/
def CalcState.domain (s : CalcState) : Axis → ℚ × ℚ
  | .x => s.domainX
  | .y => s.domainY

/-- `this.range[axis]`. -/
def CalcState.range (s : CalcState) : Axis → ℚ × ℚ
  | .x => s.rangeX
  | .y => s.rangeY

/-- `pixelsToValue(pixels, axis)`: converts a pixel extent into domain units
via the domain-extent / range-extent ratio. -/
def pixelsToValue (s : CalcState) (pixels : ℚ) (axis : Axis) : ℚ :=
  let d := s.domain axis
  let r := s.range axis
  (max d.1 d.2 - min d.1 d.2) / (max r.1 r.2 - min r.1 r.2) * pixels

/-- The `totalWidth` local of `adjustX`: bar padding plus bar width, both
converted to x-domain units. -/
def totalWidthX (s : CalcState) : ℚ :=
  pixelsToValue s s.barPadding .x + pixelsToValue s s.barWidth .x

/-- `adjustX(data, index, options)`: horizontal placement of a bar.
`center` is `length/2` for an even number of datasets and `(length-1)/2`
otherwise; non-stacked bars are shifted by `(index - center) * totalWidth`. -/
def adjustX (s : CalcState) (data : Datum) (index : ℕ) (stacked : Bool) : ℚ :=
  let n := s.datasets.length
  let center : ℚ := if n % 2 = 0 then (n : ℚ) / 2 else ((n : ℚ) - 1) / 2
  let centerOffset : ℚ := (index : ℚ) - center
  let tw := totalWidthX s
  match data.category with
  | some c =>
    let rangeBand := s.categories.getD c []
    let bandCenter := (listMax rangeBand + listMin rangeBand) / 2
    if stacked then bandCenter else bandCenter + centerOffset * tw
  | none => if stacked then data.x else data.x + centerOffset * tw

/-- The `sameSign` test of `getYOffset`:
`(y < 0 && barValue < 0) || (y >= 0 && barValue >= 0)`. -/
def sameSignB (y v : ℚ) : Bool :=
  if (y < 0 ∧ v < 0) ∨ (0 ≤ y ∧ 0 ≤ v) then true else false

/-- One step of the `_.reduce` in `getYOffset`. A missing entry
(`bar[barIndex]` out of range, `undefined` in JS) fails both comparisons and
leaves the accumulator unchanged. -/
def yOffsetStep (y : ℚ) (barIndex : ℕ) (memo : ℚ) (bar : List ℚ) : ℚ :=
  match bar[barIndex]? with
  | none => memo
  | some barValue => if sameSignB y barValue then memo + barValue else memo

/-- `getYOffset(data, index, barIndex)`: baseline `max(min(domain.y), 0)` for
the first dataset, otherwise the sign-matching sum over all prior datasets'
values at the same point index. -/
def getYOffset (s : CalcState) (data : Datum) (index barIndex : ℕ) : ℚ :=
  let minY := min s.domainY.1 s.domainY.2
  if index = 0 then max minY 0
  else
    let previousDataSets := s.datasets.take index
    let previousBars := previousDataSets.map (fun ds => ds.map Datum.y)
    previousBars.foldl (yOffsetStep data.y barIndex) 0

/-- The `y0` local of `getBarPosition`. -/
def barY0 (s : CalcState) (data : Datum) (index barIndex : ℕ) : ℚ :=
  if s.stacked then getYOffset s data index barIndex
  else max (min s.domainY.1 s.domainY.2) 0

/-- The `y1` local of `getBarPosition`. -/
def barY1 (s : CalcState) (data : Datum) (index barIndex : ℕ) : ℚ :=
  if s.stacked then getYOffset s data index barIndex + data.y else data.y

/-- The geometry record returned by `getBarPosition`. -/
structure BarPosition where
  independent : ℚ
  dependent0 : ℚ
  dependent1 : ℚ
deriving DecidableEq, Repr

/-- `getBarPosition(data, index, barIndex)`; the d3 scale functions
`this.scale.x` / `this.scale.y` are the parameters `sx` / `sy`. -/
def getBarPosition (s : CalcState) (sx sy : ℚ → ℚ) (data : Datum)
    (index barIndex : ℕ) : BarPosition :=
  { independent := sx (adjustX s data index s.stacked)
    dependent0 := sy (barY0 s data index barIndex)
    dependent1 := sy (barY1 s data index barIndex) }

/-- `_.uniq`: deduplication keeping first occurrences. -/
def uniqJS : List ℚ → List ℚ
  | [] => []
  | x :: xs => x :: uniqJS (xs.filter (fun v => v ≠ x))
termination_by l => l.length
decreasing_by
  exact Nat.lt_succ_of_le (List.length_filter_le _ _)

/-- `_.sortBy` on numbers: ascending sort. -/
def sortQ (l : List ℚ) : List ℚ :=
  l.mergeSort

/-- `_.findIndex(l, n => n === x)`: index of the first occurrence, `-1` when
absent. -/
def jsFindIndex (l : List ℚ) (x : ℚ) : Int :=
  match l with
  | [] => -1
  | a :: t =>
    if a = x then 0
    else
      let r := jsFindIndex t x
      if r = -1 then -1 else r + 1

/-- All x values of all datasets, flattened (`_.flatten(allX)`). -/
def allXs (s : CalcState) : List ℚ :=
  (s.datasets.map (fun ds => ds.map Datum.x)).flatten

/-- `getLabelIndex(data)`: the point's `category` if it has one; else `x - 1`
when the x axis has a string map; else the position of `x` in the sorted
deduplicated list of all x values (as a JS number). -/
def getLabelIndex (s : CalcState) (data : Datum) : ℚ :=
  match data.category with
  | some c => (c : ℚ)
  | none =>
    if s.stringMapX then data.x - 1
    else (jsFindIndex (sortQ (uniqJS (allXs s))) data.x : ℚ)

/-- The label-routing test of `renderBars`:
`(stacked && isLast) || (!stacked && isCenter)` with
`isCenter = Math.floor(length / 2) === index` and
`isLast = length === index + 1`. -/
def plotGroupLabel (numDatasets : ℕ) (stacked : Bool) (index : ℕ) : Bool :=
  let isCenter := numDatasets / 2 == index
  let isLast := numDatasets == index + 1
  (stacked && isLast) || (!stacked && isCenter)

/-- JS array indexing `l[q]` by a number: an element only when `q` is a
natural number within bounds, `undefined` otherwise. -/
def jsGetQ (l : List JSVal) (q : ℚ) : JSVal :=
  if q.den = 1 ∧ 0 ≤ q.num ∧ q.num < l.length then
    (l[q.num.toNat]?).getD .undefined
  else .undefined

/-- The label-text expression of `renderBars`:
`this.props.labels ? this.props.labels[labelIndex] || this.props.labels[0] : ""`. -/
def labelText (labels : Option (List JSVal)) (labelIndex : ℚ) : JSVal :=
  match labels with
  | none => .str ""
  | some ls =>
    let v := jsGetQ ls labelIndex
    if v.truthy then v else jsGetQ ls 0

/-- One bar of the output geometry: its position and, when this bar carries
the group label, the resolved label text. -/
structure BarOut where
  position : BarPosition
  label : Option JSVal
deriving DecidableEq, Repr

/-- The geometry-relevant part of `renderBars(dataset, index)`: one `BarOut`
per point; the label is attached only on the dataset selected by
`plotGroupLabel` and only when `labels` or `labelComponents` are configured. -/
def renderBarsGeom (s : CalcState) (sx sy : ℚ → ℚ) (labels : Option (List JSVal))
    (hasLabelComponents : Bool) (dataset : List Datum) (index : ℕ) : List BarOut :=
  let plotGroup := plotGroupLabel s.datasets.length s.stacked index
  dataset.enum.map (fun p =>
    let position := getBarPosition s sx sy p.2 index p.1
    let plotLabel := plotGroup && (labels.isSome || hasLabelComponents)
    { position := position
      label := if plotLabel then some (labelText labels (getLabelIndex s p.2)) else none })

/-- The full layout pipeline (`renderData` over all datasets). -/
def computeGeometry (s : CalcState) (sx sy : ℚ → ℚ) (labels : Option (List JSVal))
    (hasLabelComponents : Bool) : List (List BarOut) :=
  s.datasets.enum.map (fun p => renderBarsGeom s sx sy labels hasLabelComponents p.2 p.1)

/-- A flat JS style object restricted to numeric values, as a partial map
from keys. -/
def StyleObj : Type := String → Option ℚ

/-- `_.merge(dst, src)` on flat objects: a key defined in the source wins;
`undefined` source entries keep the destination value. -/
def mergeFlat (dst src : StyleObj) : StyleObj :=
  fun k =>
    match src k with
    | some v => some v
    | none => dst k

/-- The `parent` part of `getStyles(props)`:
`_.merge({height: props.height, width: props.width}, parent)` where `parent`
is the user-supplied `style.parent` (absent user style gives an empty object). -/
def getStylesParent (height width : ℚ) (parent : Option StyleObj) : StyleObj :=
  let base : StyleObj :=
    fun k => if k = "height" then some height else if k = "width" then some width else none
  mergeFlat base (fun k => match parent with | none => none | some p => p k)

/-- One element of the `categories` prop: a string label, a number, or a
`[min, max]`-style range band (an array of numbers). -/
inductive CatItem where
  | s (v : String) : CatItem
  | n (v : ℚ) : CatItem
  | band (vs : List ℚ) : CatItem
deriving DecidableEq, Repr

/-- Modelled from the spec: `Collection.containsStrings` from `victory-util`
(not in this repository) — whether the categories collection consists of
plain string labels, i.e. contains a string element. -/
def containsStrings (cats : List CatItem) : Bool :=
  cats.any (fun c => match c with | .s _ => true | _ => false)

/-- `_.flatten(props.categories)` restricted to numeric content: a number
stands for itself, a range band contributes its entries. (String elements are
only reachable when `containsStrings` holds, a case the caller filters out.) -/
def flattenCats (cats : List CatItem) : List ℚ :=
  (cats.map (fun c => match c with | .s _ => [] | .n v => [v] | .band vs => vs)).flatten

/-- The `domain` prop: absent, a shared `[min, max]` array, or a per-axis
object whose `x` / `y` entries may each be absent. -/
inductive DomainProp where
  | missing : DomainProp
  | arr (d : ℚ × ℚ) : DomainProp
  | perAxis (dx dy : Option (ℚ × ℚ)) : DomainProp
deriving DecidableEq, Repr

/-- `props.domain[axis]` for the per-axis object form. -/
def DomainProp.axisEntry : DomainProp → Axis → Option (ℚ × ℚ)
  | .perAxis dx _, .x => dx
  | .perAxis _ dy, .y => dy
  | _, _ => none

/-- `getDomainFromCategories(props, axis)`: only for the x axis, only when
categories are configured and are not plain strings; then the min and max of
the flattened category values. -/
def getDomainFromCategories (categories : Option (List CatItem)) (axis : Axis) :
    Option (ℚ × ℚ) :=
  if axis ≠ Axis.x then none
  else match categories with
    | none => none
    | some cs =>
      if containsStrings cs then none
      else some (listMin (flattenCats cs), listMax (flattenCats cs))

/-- `getDomain(props, axis)`. The external collaborators are parameters:
`pad` is `Chart.padDomain` and `scan` is `Chart.getDomainFromGroupedData`
(both from `victory-util`, not in this repository). The branch order follows
the source: explicit per-axis entry, then a shared domain array, then the
category domain, then the data scan; the result is always padded. -/
def getDomain (pad : ℚ × ℚ → Axis → ℚ × ℚ) (scan : Axis → ℚ × ℚ)
    (domainProp : DomainProp) (categories : Option (List CatItem)) (axis : Axis) :
    ℚ × ℚ :=
  let categoryDomain := getDomainFromCategories categories axis
  let domain :=
    match domainProp.axisEntry axis with
    | some d => d
    | none =>
      match domainProp with
      | .arr d => d
      | _ =>
        match categoryDomain with
        | some cd => cd
        | none => scan axis
  pad domain axis

/-! Concrete example configurations used by the claims. -/

/-- Two identical datasets over the same x values, non-stacked (the grouped
two-dataset configuration of the spec's offset example). -/
def sEx1 : CalcState :=
  { datasets := [[⟨1, 2, none⟩, ⟨2, 3, none⟩], [⟨1, 2, none⟩, ⟨2, 3, none⟩]]
    domainX := (0, 3), domainY := (0, 3), rangeX := (0, 100), rangeY := (100, 0)
    barPadding := 6, barWidth := 8, categories := [], stacked := false
    stringMapX := false }

/-- The first datum of `sEx1` (`{x: 1, y: 2}`). -/
def dEx1 : Datum := ⟨1, 2, none⟩

/-- The stacked configuration `[[{x:1,y:3}], [{x:1,y:-2}]]` of the mixed-sign
stacking example. -/
def sEx3 : CalcState :=
  { datasets := [[⟨1, 3, none⟩], [⟨1, -2, none⟩]]
    domainX := (0, 2), domainY := (-2, 3), rangeX := (0, 100), rangeY := (100, 0)
    barPadding := 6, barWidth := 8, categories := [], stacked := true
    stringMapX := false }

/-- The stacked configuration `[[{x:1,y:3}], [{x:1,y:2}]]` of the stacking
example. -/
def sEx4 : CalcState :=
  { datasets := [[⟨1, 3, none⟩], [⟨1, 2, none⟩]]
    domainX := (0, 2), domainY := (0, 5), rangeX := (0, 100), rangeY := (100, 0)
    barPadding := 6, barWidth := 8, categories := [], stacked := true
    stringMapX := false }

/-- A three-x configuration with range-band categories `[[0,5],[5,10]]`. -/
def sEx6 : CalcState :=
  { datasets := [[⟨3, 1, none⟩, ⟨1, 1, none⟩], [⟨2, 1, none⟩]]
    domainX := (0, 4), domainY := (0, 2), rangeX := (0, 100), rangeY := (100, 0)
    barPadding := 6, barWidth := 8, categories := [[0, 5], [5, 10]], stacked := false
    stringMapX := false }

/-- Stacked `[[{x:1,y:2}], [{x:1,y:0}]]`: a zero-valued point above a positive
one. -/
def sEx10 : CalcState :=
  { datasets := [[⟨1, 2, none⟩], [⟨1, 0, none⟩]]
    domainX := (0, 2), domainY := (0, 2), rangeX := (0, 100), rangeY := (100, 0)
    barPadding := 6, barWidth := 8, categories := [], stacked := true
    stringMapX := false }

/-- A user parent style that sets its own height and width. -/
def parentOverride : StyleObj :=
  fun k => if k = "height" then some 999 else if k = "width" then some 777 else none

/-- A concrete stand-in for `Chart.padDomain`: widen each end by 1. -/
def padEx : ℚ × ℚ → Axis → ℚ × ℚ :=
  fun d _ => (d.1 - 1, d.2 + 1)

/-- A concrete stand-in for `Chart.getDomainFromGroupedData`. -/
def scanEx : Axis → ℚ × ℚ :=
  fun _ => (0, 10)

/-! Helper lemmas. -/

/-- Unrolling the `_.reduce` of `getYOffset`: the fold adds exactly the
defined prior values at the point index whose sign matches. -/
lemma foldl_yOffsetStep (y : ℚ) (b : ℕ) (bars : List (List ℚ)) (init : ℚ) :
    bars.foldl (yOffsetStep y b) init =
      init + ((bars.filterMap (fun bar => bar[b]?)).filter (sameSignB y)).sum := by
  induction bars generalizing init with
  | nil => simp
  | cons bar rest ih =>
    rw [List.foldl_cons, ih, List.filterMap_cons]
    unfold yOffsetStep
    cases h : bar[b]? with
    | none => simp [h]
    | some bv =>
      by_cases hs : sameSignB y bv
      · simp only [hs, if_true, List.filter_cons, List.sum_cons]
        ring
      · simp [hs, List.filter_cons]

/-- `getYOffset` at a nonzero dataset index is the sign-matching sum over the
prior datasets' values at the same point index. -/
lemma getYOffset_eq_sum (s : CalcState) (d : Datum) (i b : ℕ) (hi : i ≠ 0) :
    getYOffset s d i b =
      (((s.datasets.take i).filterMap (fun ds => (ds.map Datum.y)[b]?)).filter
        (sameSignB d.y)).sum := by
  unfold getYOffset
  rw [if_neg hi, foldl_yOffsetStep, List.filterMap_map, zero_add]
  rfl

/-- Membership in `uniqJS` agrees with membership in the original list. -/
lemma mem_uniqJS (l : List ℚ) (a : ℚ) : a ∈ uniqJS l ↔ a ∈ l := by
  induction l using uniqJS.induct with
  | case1 => simp [uniqJS]
  | case2 x xs ih =>
    rw [uniqJS]
    by_cases hax : a = x
    · simp [hax]
    · simp only [List.mem_cons, hax, false_or, ih, List.mem_filter]
      simp [hax]

/-- `uniqJS` produces a duplicate-free list. -/
lemma nodup_uniqJS (l : List ℚ) : (uniqJS l).Nodup := by
  induction l using uniqJS.induct with
  | case1 => simp [uniqJS]
  | case2 x xs ih =>
    rw [uniqJS, List.nodup_cons]
    refine ⟨fun hx => ?_, ih⟩
    have := (mem_uniqJS _ x).mp hx
    simp [List.mem_filter] at this

/-- In a sorted duplicate-free list, the index found for a member is the
number of entries below it. -/
lemma jsFindIndex_sorted_nodup (l : List ℚ) (x : ℚ) (hs : l.Sorted (· ≤ ·))
    (hn : l.Nodup) (hx : x ∈ l) :
    jsFindIndex l x = ((l.filter (fun v => decide (v < x))).length : Int) := by
  induction l with
  | nil => cases hx
  | cons a t ih =>
    rw [List.sorted_cons] at hs
    rw [List.nodup_cons] at hn
    by_cases hax : a = x
    · subst hax
      have hfilt : t.filter (fun v => decide (v < a)) = [] := by
        apply List.filter_eq_nil_iff.mpr
        intro b hb
        simp only [decide_eq_true_eq]
        exact not_lt.mpr (hs.1 b hb)
      rw [jsFindIndex, if_pos rfl, List.filter_cons]
      simp [hfilt]
    · have hxt : x ∈ t := by
        rcases List.mem_cons.mp hx with h | h
        · exact absurd h.symm hax
        · exact h
      have hax' : a < x := lt_of_le_of_ne (hs.1 x hxt) hax
      have hr := ih hs.2 hn.2 hxt
      rw [jsFindIndex, if_neg hax]
      simp only [hr, List.filter_cons]
      rw [if_pos (show (decide (a < x)) = true from by simpa using hax')]
      rw [if_neg (show ¬((t.filter (fun v => decide (v < x))).length : Int) = -1 from by omega)]
      simp only [List.length_cons]
      omega

/-- The sorted deduplicated list is a permutation of the deduplicated list, so
counting below a value agrees between the two. -/
lemma length_filter_sortQ (l : List ℚ) (p : ℚ → Bool) :
    ((sortQ l).filter p).length = (l.filter p).length :=
  ((List.mergeSort_perm l _).filter p).length_eq

/-! Claim theorems. -/

/-- C1, counterexample: with two datasets sharing x values (`sEx1`), the two
bars at x = 1 are NOT offset by ±0.5·totalWidth from the nominal x in either
assignment of signs to dataset indices (the code places them at
x − totalWidth and x). -/
theorem adjustX_two_datasets_not_symmetric :
    ¬ ((adjustX sEx1 dEx1 0 false = dEx1.x - totalWidthX sEx1 / 2 ∧
        adjustX sEx1 dEx1 1 false = dEx1.x + totalWidthX sEx1 / 2) ∨
       (adjustX sEx1 dEx1 0 false = dEx1.x + totalWidthX sEx1 / 2 ∧
        adjustX sEx1 dEx1 1 false = dEx1.x - totalWidthX sEx1 / 2)) := by
  norm_num [adjustX, dEx1, sEx1, totalWidthX, pixelsToValue, CalcState.domain,
    CalcState.range]

/-- C1, amended: with exactly two datasets, not stacked, a bar without a
category is placed at `x + (index − 1)·totalWidth`: the index-0 bar sits at
x − totalWidth and the index-1 bar at the nominal x (the group is centered on
the midpoint between them, not on the nominal x). -/
theorem adjustX_two_datasets (s : CalcState) (d : Datum)
    (hc : d.category = none) (hl : s.datasets.length = 2) :
    adjustX s d 0 false = d.x - totalWidthX s ∧ adjustX s d 1 false = d.x := by
  simp only [adjustX, hc, hl]
  norm_num
  ring

/-- C1, witness for the amended theorem, at the two-dataset configuration
`sEx1`. -/
theorem adjustX_two_datasets_witness :
    adjustX sEx1 dEx1 0 false = dEx1.x - totalWidthX sEx1 ∧
    adjustX sEx1 dEx1 1 false = dEx1.x :=
  adjustX_two_datasets sEx1 dEx1 rfl rfl

/-- C2, counterexample: a user-supplied parent style with `height: 999`
overrides the chart's configured `props.height = 300`, because `getStyles`
merges the user parent style over the `{height, width}` defaults. -/
theorem getStylesParent_override_wins :
    ¬ (getStylesParent 300 450 (some parentOverride) "height" = some 300) := by
  decide

/-- C2, amended: the resolved parent style's height and width equal the
user-supplied parent style's values when those keys are defined, and fall
back to the chart's configured `props.height` / `props.width` only when the
user parent style omits them (or no style is supplied). -/
theorem getStylesParent_spec (h w : ℚ) (p : StyleObj) :
    getStylesParent h w (some p) "height" = ((p "height").elim (some h) some) ∧
    getStylesParent h w (some p) "width" = ((p "width").elim (some w) some) ∧
    getStylesParent h w none "height" = some h ∧
    getStylesParent h w none "width" = some w := by
  refine ⟨?_, ?_, ?_, ?_⟩ <;> simp only [getStylesParent, mergeFlat]
  · cases hp : p "height" <;> simp [hp, if_pos rfl]
  · cases hp : p "width" <;>
      simp [hp, if_neg (show ¬("width" : String) = "height" by decide), if_pos rfl]
  · simp [if_pos rfl]
  · simp [if_neg (show ¬("width" : String) = "height" by decide), if_pos rfl]

/-- C2, witness for the amended theorem, at the overriding parent style. -/
theorem getStylesParent_spec_witness :
    getStylesParent 300 450 (some parentOverride) "height" =
      ((parentOverride "height").elim (some 300) some) ∧
    getStylesParent 300 450 (some parentOverride) "width" =
      ((parentOverride "width").elim (some 450) some) ∧
    getStylesParent 300 450 none "height" = some 300 ∧
    getStylesParent 300 450 none "width" = some 450 :=
  getStylesParent_spec 300 450 parentOverride

/-- C3: in stacked positioning the cumulative y-offset for a dataset index
other than 0 sums, over the prior datasets' values at the same point index,
exactly those whose sign matches the current point's y; index 0 offsets from
`max(min(domain.y), 0)`; and for `[[{x:1,y:3}], [{x:1,y:-2}]]` the negative
bar's y0 is 0, not 3. -/
theorem getYOffset_sign_aware :
    (∀ (s : CalcState) (d : Datum) (b : ℕ),
        getYOffset s d 0 b = max (min s.domainY.1 s.domainY.2) 0) ∧
    (∀ (s : CalcState) (d : Datum) (i b : ℕ), i ≠ 0 →
        getYOffset s d i b =
          (((s.datasets.take i).filterMap (fun ds => (ds.map Datum.y)[b]?)).filter
            (sameSignB d.y)).sum) ∧
    (barY0 sEx3 ⟨1, -2, none⟩ 1 0 = 0 ∧ (0 : ℚ) ≠ 3) := by
  refine ⟨?_, ?_, ?_, ?_⟩
  · intro s d b
    simp [getYOffset]
  · intro s d i b hi
    exact getYOffset_eq_sum s d i b hi
  · norm_num [barY0, sEx3, getYOffset, yOffsetStep, sameSignB]
  · norm_num

/-- C3, witness: the sign-matching-sum form evaluated on the mixed-sign
stacked example. -/
theorem getYOffset_sign_aware_witness :
    getYOffset sEx3 ⟨1, -2, none⟩ 1 0 =
      (((sEx3.datasets.take 1).filterMap (fun ds => (ds.map Datum.y)[0]?)).filter
        (sameSignB (-2))).sum :=
  getYOffset_sign_aware.2.1 sEx3 ⟨1, -2, none⟩ 1 0 (by decide)

/-- C4: when stacked, a bar's dependent coordinates are the scaled cumulative
offset and the scaled offset-plus-raw-y; on `[[{x:1,y:3}], [{x:1,y:2}]]` the
first bar's y1 is 3, the second bar's y0 is 3 and its y1 is 5, and under any
scale the second bar's dependent0 equals the first bar's dependent1. -/
theorem getBarPosition_stacked :
    (∀ (s : CalcState) (sx sy : ℚ → ℚ) (d : Datum) (i b : ℕ), s.stacked = true →
        (getBarPosition s sx sy d i b).dependent0 = sy (getYOffset s d i b) ∧
        (getBarPosition s sx sy d i b).dependent1 =
          sy (getYOffset s d i b + d.y)) ∧
    (barY1 sEx4 ⟨1, 3, none⟩ 0 0 = 3 ∧ barY0 sEx4 ⟨1, 2, none⟩ 1 0 = 3 ∧
      barY1 sEx4 ⟨1, 2, none⟩ 1 0 = 5) ∧
    (∀ sx sy : ℚ → ℚ, (getBarPosition sEx4 sx sy ⟨1, 2, none⟩ 1 0).dependent0 =
        (getBarPosition sEx4 sx sy ⟨1, 3, none⟩ 0 0).dependent1) := by
  refine ⟨?_, ?_, ?_⟩
  · intro s sx sy d i b hst
    simp [getBarPosition, barY0, barY1, hst]
  · refine ⟨?_, ?_, ?_⟩ <;>
      norm_num [barY0, barY1, sEx4, getYOffset, yOffsetStep, sameSignB]
  · intro sx sy
    have h1 : barY0 sEx4 ⟨1, 2, none⟩ 1 0 = barY1 sEx4 ⟨1, 3, none⟩ 0 0 := by
      norm_num [barY0, barY1, sEx4, getYOffset, yOffsetStep, sameSignB]
    simp [getBarPosition, h1]

/-- C4, witness: the stacked coordinate equations at the second bar of the
stacking example, with the identity scale. -/
theorem getBarPosition_stacked_witness :
    (getBarPosition sEx4 id id ⟨1, 2, none⟩ 1 0).dependent0 =
      id (getYOffset sEx4 ⟨1, 2, none⟩ 1 0) ∧
    (getBarPosition sEx4 id id ⟨1, 2, none⟩ 1 0).dependent1 =
      id (getYOffset sEx4 ⟨1, 2, none⟩ 1 0 + (2 : ℚ)) :=
  getBarPosition_stacked.1 sEx4 id id ⟨1, 2, none⟩ 1 0 rfl

/-- C10: in the sign test a y of exactly 0 counts as positive (`y >= 0`), so
a zero-valued point at a nonzero dataset index accumulates the nonnegative
prior values at its point index; on `[[{x:1,y:2}], [{x:1,y:0}]]` the zero bar
receives offset 2. -/
theorem getYOffset_zero_is_positive :
    (∀ v : ℚ, sameSignB 0 v = decide (0 ≤ v)) ∧
    (∀ (s : CalcState) (d : Datum) (i b : ℕ), d.y = 0 → i ≠ 0 →
        getYOffset s d i b =
          (((s.datasets.take i).filterMap (fun ds => (ds.map Datum.y)[b]?)).filter
            (fun v => decide (0 ≤ v))).sum) ∧
    getYOffset sEx10 ⟨1, 0, none⟩ 1 0 = 2 := by
  refine ⟨?_, ?_, ?_⟩
  · intro v
    by_cases hv : 0 ≤ v <;> simp [sameSignB, hv]
  · intro s d i b hy hi
    rw [getYOffset_eq_sum s d i b hi, hy]
    congr 1
    apply List.filter_congr
    intro v _
    by_cases hv : 0 ≤ v <;> simp [sameSignB, hv]
  · norm_num [getYOffset, sEx10, yOffsetStep, sameSignB]

/-- C10, witness: the nonnegative-sum form evaluated on the zero-over-positive
example. -/
theorem getYOffset_zero_is_positive_witness :
    getYOffset sEx10 ⟨1, 0, none⟩ 1 0 =
      (((sEx10.datasets.take 1).filterMap (fun ds => (ds.map Datum.y)[0]?)).filter
        (fun v => decide (0 ≤ v))).sum :=
  getYOffset_zero_is_positive.2.1 sEx10 ⟨1, 0, none⟩ 1 0 rfl (by decide)

/-- C5: domain resolution priority. An explicit per-axis entry of the
`domain` prop wins; else a shared domain array; else, for the x axis only,
when categories are configured and contain no strings, the min/max of the
flattened category values; else the dataset scan. String categories and the
y axis never take the category branch, and every branch is passed through
`Chart.padDomain`. -/
theorem getDomain_priority :
    (∀ (pad : ℚ × ℚ → Axis → ℚ × ℚ) (scan : Axis → ℚ × ℚ) (dom : DomainProp)
        (cats : Option (List CatItem)) (axis : Axis) (d : ℚ × ℚ),
        dom.axisEntry axis = some d → getDomain pad scan dom cats axis = pad d axis) ∧
    (∀ (pad : ℚ × ℚ → Axis → ℚ × ℚ) (scan : Axis → ℚ × ℚ)
        (cats : Option (List CatItem)) (axis : Axis) (d : ℚ × ℚ),
        getDomain pad scan (.arr d) cats axis = pad d axis) ∧
    (∀ (pad : ℚ × ℚ → Axis → ℚ × ℚ) (scan : Axis → ℚ × ℚ) (cs : List CatItem),
        containsStrings cs = false →
        getDomain pad scan .missing (some cs) .x =
          pad (listMin (flattenCats cs), listMax (flattenCats cs)) .x) ∧
    (∀ (pad : ℚ × ℚ → Axis → ℚ × ℚ) (scan : Axis → ℚ × ℚ) (cs : List CatItem),
        containsStrings cs = true →
        getDomain pad scan .missing (some cs) .x = pad (scan .x) .x) ∧
    (∀ (pad : ℚ × ℚ → Axis → ℚ × ℚ) (scan : Axis → ℚ × ℚ)
        (cats : Option (List CatItem)),
        getDomain pad scan .missing cats .y = pad (scan .y) .y) ∧
    (∀ (pad : ℚ × ℚ → Axis → ℚ × ℚ) (scan : Axis → ℚ × ℚ),
        getDomain pad scan .missing none .x = pad (scan .x) .x) ∧
    (∀ (pad : ℚ × ℚ → Axis → ℚ × ℚ) (scan : Axis → ℚ × ℚ) (dom : DomainProp)
        (cats : Option (List CatItem)) (axis : Axis),
        ∃ d0, getDomain pad scan dom cats axis = pad d0 axis) := by
  refine ⟨?_, ?_, ?_, ?_, ?_, ?_, ?_⟩
  · intro pad scan dom cats axis d h
    simp [getDomain, h]
  · intro pad scan cats axis d
    cases axis <;> simp [getDomain, DomainProp.axisEntry]
  · intro pad scan cs h
    simp [getDomain, DomainProp.axisEntry, getDomainFromCategories, h]
  · intro pad scan cs h
    simp [getDomain, DomainProp.axisEntry, getDomainFromCategories, h]
  · intro pad scan cats
    simp [getDomain, DomainProp.axisEntry, getDomainFromCategories]
  · intro pad scan
    simp [getDomain, DomainProp.axisEntry, getDomainFromCategories]
  · intro pad scan dom cats axis
    exact ⟨_, rfl⟩

/-- C5, witness: the category branch on range bands `[[0,5],[5,10]]` with the
concrete padding and scan stand-ins. -/
theorem getDomain_priority_witness :
    getDomain padEx scanEx DomainProp.missing
        (some [CatItem.band [0, 5], CatItem.band [5, 10]]) Axis.x =
      padEx (listMin (flattenCats [CatItem.band [0, 5], CatItem.band [5, 10]]),
        listMax (flattenCats [CatItem.band [0, 5], CatItem.band [5, 10]])) Axis.x :=
  getDomain_priority.2.2.1 padEx scanEx [CatItem.band [0, 5], CatItem.band [5, 10]] rfl

/-- C6: label index resolution. A point's explicit `category` is the label
index (so with categories `[[0,5],[5,10]]` and `category: 1` the index is 1);
else with a string-encoded x axis it is `x - 1`; else it is the position of
the point's x among the sorted distinct x values of all datasets, i.e. the
number of distinct x values below it. -/
theorem getLabelIndex_resolution :
    (∀ (s : CalcState) (d : Datum) (c : ℕ), d.category = some c →
        getLabelIndex s d = (c : ℚ)) ∧
    (∀ (s : CalcState) (d : Datum), d.category = none → s.stringMapX = true →
        getLabelIndex s d = d.x - 1) ∧
    (∀ (s : CalcState) (d : Datum), d.category = none → s.stringMapX = false →
        d.x ∈ allXs s →
        getLabelIndex s d =
          (((uniqJS (allXs s)).filter (fun v => decide (v < d.x))).length : ℚ)) ∧
    getLabelIndex sEx6 ⟨7, 1, some 1⟩ = 1 := by
  refine ⟨?_, ?_, ?_, ?_⟩
  · intro s d c h
    simp [getLabelIndex, h]
  · intro s d h hs
    simp [getLabelIndex, h, hs]
  · intro s d h hs hx
    have hmem : d.x ∈ sortQ (uniqJS (allXs s)) := by
      rw [sortQ]
      exact (List.mergeSort_perm _ _).mem_iff.mpr ((mem_uniqJS _ _).mpr hx)
    have hsorted : (sortQ (uniqJS (allXs s))).Sorted (· ≤ ·) :=
      List.sorted_mergeSort' _
    have hnodup : (sortQ (uniqJS (allXs s))).Nodup :=
      (List.mergeSort_perm _ _).nodup_iff.mpr (nodup_uniqJS _)
    have hfi := jsFindIndex_sorted_nodup _ d.x hsorted hnodup hmem
    simp [getLabelIndex, h, hs, hfi, length_filter_sortQ]
  · norm_num [getLabelIndex]

/-- C6, witness: the sorted-position form evaluated at `x = 2` of the
three-x configuration. -/
theorem getLabelIndex_resolution_witness :
    getLabelIndex sEx6 ⟨2, 1, none⟩ =
      (((uniqJS (allXs sEx6)).filter (fun v => decide (v < 2))).length : ℚ) :=
  getLabelIndex_resolution.2.2.1 sEx6 ⟨2, 1, none⟩ rfl rfl (by decide)

/-- C7: with at least one dataset, exactly one dataset index carries the
group label — the last (`count − 1`) when stacked, the center
(`⌊count/2⌋`) otherwise; when labels or label components are configured, the
selected dataset renders every one of its bars with the resolved group
label attached, and a dataset whose index is not selected renders every bar
without a label. -/
theorem plotGroupLabel_unique :
    (∀ (n : ℕ) (st : Bool), 1 ≤ n →
        ((if st then n - 1 else n / 2) < n ∧
          ∀ i : ℕ, plotGroupLabel n st i = true ↔ i = if st then n - 1 else n / 2)) ∧
    (∀ (s : CalcState) (sx sy : ℚ → ℚ) (labels : Option (List JSVal))
        (hlc : Bool) (ds : List Datum) (index : ℕ),
        plotGroupLabel s.datasets.length s.stacked index = true →
        (labels.isSome || hlc) = true →
        renderBarsGeom s sx sy labels hlc ds index =
          ds.enum.map (fun p =>
            { position := getBarPosition s sx sy p.2 index p.1
              label := some (labelText labels (getLabelIndex s p.2)) })) ∧
    (∀ (s : CalcState) (sx sy : ℚ → ℚ) (labels : Option (List JSVal))
        (hlc : Bool) (ds : List Datum) (index : ℕ),
        plotGroupLabel s.datasets.length s.stacked index = false →
        ∀ b ∈ renderBarsGeom s sx sy labels hlc ds index, b.label = none) := by
  refine ⟨?_, ?_, ?_⟩
  · intro n st hn
    cases st
    · constructor
      · show n / 2 < n
        exact Nat.div_lt_self (by omega) (by omega)
      · intro i
        show plotGroupLabel n false i = true ↔ i = n / 2
        simp only [plotGroupLabel, Bool.false_and, Bool.not_false, Bool.true_and,
          Bool.false_or, beq_iff_eq]
        omega
    · constructor
      · show n - 1 < n
        omega
      · intro i
        show plotGroupLabel n true i = true ↔ i = n - 1
        simp only [plotGroupLabel, Bool.true_and, Bool.not_true, Bool.false_and,
          Bool.or_false, beq_iff_eq]
        omega
  · intro s sx sy labels hlc ds index hpg hconf
    simp [renderBarsGeom, hpg, hconf]
  · intro s sx sy labels hlc ds index hpg b hb
    simp only [renderBarsGeom, hpg, Bool.false_and, Bool.false_eq_true,
      if_false] at hb
    rcases List.mem_map.mp hb with ⟨p, hp, rfl⟩
    rfl

/-- C7, witness: with two non-stacked datasets and a configured labels list,
index 1 (the floor of 2/2) is selected and renders its bar with the resolved
label attached. -/
theorem plotGroupLabel_unique_witness :
    plotGroupLabel 2 false 1 = true ∧
    renderBarsGeom sEx1 id id (some [JSVal.str "first"]) false [dEx1] 1 =
      [dEx1].enum.map (fun p =>
        { position := getBarPosition sEx1 id id p.2 1 p.1
          label := some (labelText (some [JSVal.str "first"])
            (getLabelIndex sEx1 p.2)) }) :=
  ⟨((plotGroupLabel_unique.1 2 false (by decide)).2 1).mpr (by decide),
    plotGroupLabel_unique.2.1 sEx1 id id (some [JSVal.str "first"]) false [dEx1] 1
      (by decide) (by decide)⟩

/-- C8: the layout pipeline is deterministic — two invocations on equal
configurations (state, scales, labels, label components) produce equal
geometry. -/
theorem computeGeometry_deterministic :
    ∀ (s s' : CalcState) (sx sx' sy sy' : ℚ → ℚ)
      (labels labels' : Option (List JSVal)) (hlc hlc' : Bool),
      s = s' → sx = sx' → sy = sy' → labels = labels' → hlc = hlc' →
      computeGeometry s sx sy labels hlc = computeGeometry s' sx' sy' labels' hlc' := by
  intro s s' sx sx' sy sy' labels labels' hlc hlc' h1 h2 h3 h4 h5
  subst h1
  subst h2
  subst h3
  subst h4
  subst h5
  rfl

/-- C8, witness: two runs on the grouped two-dataset configuration agree. -/
theorem computeGeometry_deterministic_witness :
    computeGeometry sEx1 id id none false = computeGeometry sEx1 id id none false :=
  computeGeometry_deterministic sEx1 sEx1 id id id id none none false false
    rfl rfl rfl rfl rfl

/-- C9: whenever the value at the resolved label index is falsy (missing,
`undefined`, `null`, empty string or 0), the rendered label text falls back
to the first element of the labels list. -/
theorem labelText_falsy_fallback :
    ∀ (ls : List JSVal) (idx : ℚ), (jsGetQ ls idx).truthy = false →
      labelText (some ls) idx = jsGetQ ls 0 := by
  intro ls idx h
  simp [labelText, h]

/-- C9, witness: an in-range falsy entry (`0` at index 1) falls back to the
first label. -/
theorem labelText_falsy_fallback_witness :
    labelText (some [JSVal.str "first", JSVal.num 0]) 1 =
      jsGetQ [JSVal.str "first", JSVal.num 0] 0 :=
  labelText_falsy_fallback [JSVal.str "first", JSVal.num 0] 1 (by decide)

end VictoryBar
